import Mathlib

/-!
Shallow embedding of the 0DTE SPX credit-spread recommender
(`zerodte_recommender.py`, class `ZeroDTERecommender`).

Modelling conventions:
* Python floats are modelled exactly: rationals (`ℚ`) for the strike-selection
  and spread-sizing arithmetic, reals (`ℝ`) where transcendental functions
  (log, sqrt, the normal CDF) appear.
* Strikes are integers in the source (`math.floor(...) * self.strike_gap`),
  so they are `ℤ` here.
* The historical-price fetch (`get_spx_historical_data`) and the VIX fetch are
  network I/O performed by an external data provider; following the spec they
  are modelled as parameters: `hist_data : Option (List ℝ)` (the time-ordered
  close series, `none` when the download failed) and `vix : Option ℝ`.
* Python raises `ZeroDivisionError` on division by zero and `math`/`numpy`
  reject or poison non-positive logarithm arguments; since Lean's `/` and
  `Real.log` are total, "no division by zero / no log of a non-positive
  number" is captured by explicit side-condition predicates on the arguments
  actually passed at each division / log site.
-/

namespace ZeroDTE

/-- Configuration constant `self.min_strike_distance = 0.0015`. -/
def min_strike_distance : ℚ := 0.0015

/-- Configuration constant `self.strike_gap = 5`. -/
def strike_gap : ℤ := 5

/-- Configuration constant `self.ema_window = 5`. -/
def ema_window : ℕ := 5

/-- Configuration constant `self.ema_trend_window = 260`. -/
def ema_trend_window : ℕ := 260

/-- Option side, the `option_type` string argument in the source. -/
inductive OptionType where
  | call : OptionType
  | put : OptionType
deriving DecidableEq

/-- Standard normal cumulative distribution function, `scipy.stats.norm.cdf`. -/
noncomputable def norm_cdf (x : ℝ) : ℝ :=
  ProbabilityTheory.cdf (ProbabilityTheory.gaussianReal 0 1) x

/-- Embedding of `calculate_black_scholes_delta(S, K, T, r, sigma, option_type)`:
`if T <= 0: return 1.0 if S > K else 0.0`, otherwise
`d1 = (log(S/K) + (r + 0.5*sigma**2)*T) / (sigma*sqrt(T))` and the delta is
`norm.cdf(d1)` for a call, `-norm.cdf(-d1)` for a put. -/
noncomputable def calculate_black_scholes_delta
    (S K T r sigma : ℝ) (option_type : OptionType) : ℝ :=
  if T ≤ 0 then (if K < S then 1 else 0)
  else
    let d1 : ℝ := (Real.log (S / K) + (r + 0.5 * sigma ^ 2) * T) / (sigma * Real.sqrt T)
    match option_type with
    | .call => norm_cdf d1
    | .put => -norm_cdf (-d1)

/-- Fixed time-to-expiry used in `get_strike_recommendations`: `T = 1/365`. -/
noncomputable def bs_T : ℝ := 1 / 365

/-- Fixed risk-free rate used in `get_strike_recommendations`: `r = 0.05`. -/
noncomputable def bs_r : ℝ := 0.05

/-- Fixed volatility used in `get_strike_recommendations`: `sigma = 0.20`. -/
noncomputable def bs_sigma : ℝ := 0.20

/-- Result dictionary of `get_strike_recommendations`. -/
structure StrikeRec where
  short_strike : ℤ
  long_strike : ℤ
  short_delta : ℝ
  long_delta : ℝ
  distance_from_atm : ℚ
  strike_width : ℤ

/-- Embedding of `get_strike_recommendations(spx_price, option_type)`.
For `'put'`: `target = spx*(1 - min_strike_distance)`,
`short = floor(target/gap)*gap`, `long = short - gap`,
`distance = spx - short`.  For `'call'`: `target = spx*(1 + ...)`,
`short = ceil(target/gap)*gap`, `long = short + gap`,
`distance = short - spx`.  Deltas use `T = 1/365`, `r = 0.05`,
`sigma = 0.20`. -/
noncomputable def get_strike_recommendations
    (spx_price : ℚ) (option_type : OptionType) : StrikeRec :=
  match option_type with
  | .put =>
    let strike_distance : ℚ := spx_price * min_strike_distance
    let target_strike : ℚ := spx_price - strike_distance
    let short_strike : ℤ := ⌊target_strike / (strike_gap : ℚ)⌋ * strike_gap
    let long_strike : ℤ := short_strike - strike_gap
    { short_strike := short_strike
      long_strike := long_strike
      short_delta := calculate_black_scholes_delta (spx_price : ℝ) (short_strike : ℝ)
        bs_T bs_r bs_sigma .put
      long_delta := calculate_black_scholes_delta (spx_price : ℝ) (long_strike : ℝ)
        bs_T bs_r bs_sigma .put
      distance_from_atm := spx_price - (short_strike : ℚ)
      strike_width := |short_strike - long_strike| }
  | .call =>
    let strike_distance : ℚ := spx_price * min_strike_distance
    let target_strike : ℚ := spx_price + strike_distance
    let short_strike : ℤ := ⌈target_strike / (strike_gap : ℚ)⌉ * strike_gap
    let long_strike : ℤ := short_strike + strike_gap
    { short_strike := short_strike
      long_strike := long_strike
      short_delta := calculate_black_scholes_delta (spx_price : ℝ) (short_strike : ℝ)
        bs_T bs_r bs_sigma .call
      long_delta := calculate_black_scholes_delta (spx_price : ℝ) (long_strike : ℝ)
        bs_T bs_r bs_sigma .call
      distance_from_atm := (short_strike : ℚ) - spx_price
      strike_width := |short_strike - long_strike| }

/-- Result dictionary of `calculate_spread_metrics`. -/
structure SpreadMetrics where
  estimated_credit : ℚ
  max_loss_per_spread : ℚ
  contracts_needed : ℤ
  total_credit : ℚ
  total_margin : ℚ
deriving DecidableEq

/-- Embedding of `calculate_spread_metrics(short_strike, long_strike,
target_credit, max_margin)`: `width = abs(short - long)`,
`credit = width * 30`, `max_loss = width*100 - credit`,
`contracts = ceil(target_credit / credit)`; if
`contracts * max_loss > max_margin` then
`contracts = max(1, floor(max_margin / max_loss))`. -/
def calculate_spread_metrics
    (short_strike long_strike target_credit max_margin : ℚ) : SpreadMetrics :=
  let strike_width : ℚ := |short_strike - long_strike|
  let estimated_credit_per_spread : ℚ := strike_width * 30
  let max_loss_per_spread : ℚ := strike_width * 100 - estimated_credit_per_spread
  let contracts_needed : ℤ := ⌈target_credit / estimated_credit_per_spread⌉
  let total_margin_needed : ℚ := (contracts_needed : ℚ) * max_loss_per_spread
  let contracts_final : ℤ :=
    if max_margin < total_margin_needed then
      max 1 ⌊max_margin / max_loss_per_spread⌋
    else contracts_needed
  { estimated_credit := estimated_credit_per_spread
    max_loss_per_spread := max_loss_per_spread
    contracts_needed := contracts_final
    total_credit := estimated_credit_per_spread * (contracts_final : ℚ)
    total_margin := max_loss_per_spread * (contracts_final : ℚ) }

/-- Result dictionary of `get_trade_recommendations`.  The source merges the
selector dict and the sizer dict per side (`{**rec, **metrics}`); here each
side is kept as the typed pair of its two components. -/
structure Recommendation where
  bull_put_rec : StrikeRec
  bull_put_metrics : SpreadMetrics
  bear_call_rec : StrikeRec
  bear_call_metrics : SpreadMetrics
  contracts_needed : ℤ
  estimated_credit : ℚ
  max_loss_per_spread : ℚ

/-- Embedding of `get_trade_recommendations(spx_price, target_credit,
max_margin)`: both sides are computed unconditionally and the top-level
`contracts_needed` / `estimated_credit` / `max_loss_per_spread` keys are
copied from the bull-put metrics. -/
noncomputable def get_trade_recommendations
    (spx_price target_credit max_margin : ℚ) : Recommendation :=
  let bull_put_rec := get_strike_recommendations spx_price .put
  let bear_call_rec := get_strike_recommendations spx_price .call
  let bull_put_metrics := calculate_spread_metrics
    (bull_put_rec.short_strike : ℚ) (bull_put_rec.long_strike : ℚ) target_credit max_margin
  let bear_call_metrics := calculate_spread_metrics
    (bear_call_rec.short_strike : ℚ) (bear_call_rec.long_strike : ℚ) target_credit max_margin
  { bull_put_rec := bull_put_rec
    bull_put_metrics := bull_put_metrics
    bear_call_rec := bear_call_rec
    bear_call_metrics := bear_call_metrics
    contracts_needed := bull_put_metrics.contracts_needed
    estimated_credit := bull_put_metrics.estimated_credit
    max_loss_per_spread := bull_put_metrics.max_loss_per_spread }

/-- Interpretation labels produced by `calculate_trend_score` (the
`'interpretation'` strings of the source; `noTrendData` is
`'No trend data available'`). -/
inductive TrendLabel where
  | noTrendData : TrendLabel
  | stronglyBullish : TrendLabel
  | weaklyBullish : TrendLabel
  | weaklyBearish : TrendLabel
  | stronglyBearish : TrendLabel
deriving DecidableEq

/-- Result dictionary of `calculate_trend_score`. -/
structure TrendResult where
  raw_score : ℝ
  should_trade_long : Prop
  should_trade_short : Prop
  vix_level : ℝ
  interpretation : TrendLabel

/-- Fallback result returned when no (or not enough) historical data is
available: `raw_score = 0.0`, no trade eligibility, `vix_level = 18.0`,
`interpretation = 'No trend data available'`. -/
def fallbackTrendResult : TrendResult :=
  { raw_score := 0
    should_trade_long := False
    should_trade_short := False
    vix_level := 18
    interpretation := .noTrendData }

/-- Rolling mean `l.rolling(min_periods=1, window=w).mean()` at row `i`:
the average of rows `max(0, i+1-w) .. i` (an expanding window for the first
`w - 1` rows, thanks to `min_periods=1`). -/
noncomputable def rollingMean (l : List ℝ) (w i : ℕ) : ℝ :=
  (∑ j ∈ Finset.Icc (i + 1 - w) i, l.getD j 0) / (min (i + 1) w : ℕ)

/-- First difference of the log of the rolling mean,
`np.log(ema_close).diff(1)` at row `i` (defined for `i ≥ 1`; pandas puts NaN
at row 0, which the trend-score computation below never reads since the
series has at least `ema_window + 1` rows). -/
noncomputable def logEmaDiff (l : List ℝ) (i : ℕ) : ℝ :=
  Real.log (rollingMean l ema_window i) - Real.log (rollingMean l ema_window (i - 1))

/-- The raw trend score,
`np.log(close.rolling(min_periods=1, window=5).mean()).diff(1).rolling(window=5).sum().iloc[-1]`:
the sum of the last `ema_window` first differences of the log rolling mean. -/
noncomputable def trendScoreRaw (l : List ℝ) : ℝ :=
  ∑ i ∈ Finset.Icc (l.length - ema_window) (l.length - 1), logEmaDiff l i

/-- Embedding of `calculate_trend_score`.  The source fetches the historical
series and the VIX reading over the network inside the function; these two
external inputs are modelled as the parameters `hist_data` (`none` when the
download returned nothing) and `vix` (`none` when the VIX download failed,
in which case the documented default `18.0` is used).  If the series is
missing or shorter than `ema_trend_window`, the fallback result is returned;
otherwise the series is truncated to its last `ema_trend_window` rows and the
raw score, the trade-eligibility flags (`score > 0`, `score < 0`) and the
threshold-based interpretation are computed. -/
noncomputable def calculate_trend_score
    (hist_data : Option (List ℝ)) (vix : Option ℝ) : TrendResult :=
  match hist_data with
  | none => fallbackTrendResult
  | some l =>
    if l.length < ema_trend_window then fallbackTrendResult
    else
      let t : List ℝ :=
        if ema_trend_window < l.length then l.drop (l.length - ema_trend_window) else l
      let trend_score : ℝ := trendScoreRaw t
      { raw_score := trend_score
        should_trade_long := 0 < trend_score
        should_trade_short := trend_score < 0
        vix_level := vix.getD 18
        interpretation :=
          if 0.02 < trend_score then .stronglyBullish
          else if 0 < trend_score then .weaklyBullish
          else if -0.02 < trend_score then .weaklyBearish
          else .stronglyBearish }

/-!
Safety side conditions.  Lean's `/` and `Real.log` are total, so the Python
failure modes are recorded as explicit predicates on the arguments reaching
each division and logarithm site of the pipeline.
-/

/-- Side conditions for one evaluation of `calculate_black_scholes_delta`:
either the degenerate branch `T <= 0` is taken (no arithmetic at all), or the
division `S / K` has a non-zero denominator (Python raises
`ZeroDivisionError` on `S / 0`), the logarithm argument `S / K` is positive,
and the `d1` denominator `sigma * sqrt(T)` is non-zero. -/
def bsDeltaInputsOk (S K T sigma : ℝ) : Prop :=
  T ≤ 0 ∨ (K ≠ 0 ∧ 0 < S / K ∧ sigma * Real.sqrt T ≠ 0)

/-- Side conditions for one evaluation of `calculate_spread_metrics`: the
denominator `estimated_credit_per_spread = width * 30` of the `ceil` division
is non-zero, and when the margin-reduction branch is taken, its denominator
`max_loss_per_spread` is non-zero as well. -/
def spreadMetricsInputsOk (short_strike long_strike target_credit max_margin : ℚ) : Prop :=
  let strike_width : ℚ := |short_strike - long_strike|
  let estimated_credit : ℚ := strike_width * 30
  let max_loss : ℚ := strike_width * 100 - estimated_credit
  estimated_credit ≠ 0 ∧
    (max_margin < (⌈target_credit / estimated_credit⌉ : ℚ) * max_loss → max_loss ≠ 0)

/-- Side conditions for the whole of `get_trade_recommendations`: the four
Black-Scholes delta evaluations (short and long leg of each side) and the two
spread-metric evaluations must each satisfy their division/logarithm side
conditions. -/
def pipelineInputsOk (spx_price target_credit max_margin : ℚ) : Prop :=
  let bp := get_strike_recommendations spx_price .put
  let bc := get_strike_recommendations spx_price .call
  bsDeltaInputsOk (spx_price : ℝ) (bp.short_strike : ℝ) bs_T bs_sigma ∧
  bsDeltaInputsOk (spx_price : ℝ) (bp.long_strike : ℝ) bs_T bs_sigma ∧
  bsDeltaInputsOk (spx_price : ℝ) (bc.short_strike : ℝ) bs_T bs_sigma ∧
  bsDeltaInputsOk (spx_price : ℝ) (bc.long_strike : ℝ) bs_T bs_sigma ∧
  spreadMetricsInputsOk (bp.short_strike : ℚ) (bp.long_strike : ℚ) target_credit max_margin ∧
  spreadMetricsInputsOk (bc.short_strike : ℚ) (bc.long_strike : ℚ) target_credit max_margin

/-!
Helper lemmas about the spread sizer.
-/

/-- The max loss per contract is positive whenever the width is. -/
lemma max_loss_pos {w : ℚ} (hw : 0 < w) : 0 < w * 100 - w * 30 := by nlinarith

/-- With a positive target credit and a positive width, the initial contract
count `ceil(target_credit / (width * 30))` is at least 1. -/
lemma one_le_ceil_contracts {w tc : ℚ} (hw : 0 < w) (htc : 0 < tc) :
    1 ≤ ⌈tc / (w * 30)⌉ := by
  have h : (0 : ℚ) < tc / (w * 30) := div_pos htc (by positivity)
  have := Int.ceil_pos.mpr h
  omega

/-- C3: for every strike pair with width `w = |shortStrike - longStrike| > 0`,
`targetCredit > 0` and `maxMargin > 0`, `calculate_spread_metrics` computes
`creditPerContract = w * 30`, `maxLossPerContract = w * 100 - creditPerContract`,
an initial `contractCount = ceil(targetCredit / creditPerContract)` that is at
least 1, kept when its margin fits and otherwise recomputed as
`max 1 (floor (maxMargin / maxLossPerContract))`; the scenario
`targetCredit = 2500`, width 5, `maxMargin = 5000` yields credit 150, max loss
350, initial count `ceil(2500/150) = 17`, resized to 14. -/
theorem spread_metrics_formulas :
    (∀ ss ls tc mm : ℚ, 0 < |ss - ls| → 0 < tc → 0 < mm →
      (calculate_spread_metrics ss ls tc mm).estimated_credit = |ss - ls| * 30 ∧
      (calculate_spread_metrics ss ls tc mm).max_loss_per_spread
          = |ss - ls| * 100 - |ss - ls| * 30 ∧
      1 ≤ ⌈tc / (|ss - ls| * 30)⌉ ∧
      ((⌈tc / (|ss - ls| * 30)⌉ : ℚ) * (|ss - ls| * 100 - |ss - ls| * 30) ≤ mm →
        (calculate_spread_metrics ss ls tc mm).contracts_needed
          = ⌈tc / (|ss - ls| * 30)⌉) ∧
      (mm < (⌈tc / (|ss - ls| * 30)⌉ : ℚ) * (|ss - ls| * 100 - |ss - ls| * 30) →
        (calculate_spread_metrics ss ls tc mm).contracts_needed
          = max 1 ⌊mm / (|ss - ls| * 100 - |ss - ls| * 30)⌋)) ∧
    calculate_spread_metrics 5810 5805 2500 5000
      = { estimated_credit := 150, max_loss_per_spread := 350, contracts_needed := 14,
          total_credit := 2100, total_margin := 4900 } ∧
    (⌈(2500 : ℚ) / 150⌉ : ℤ) = 17 := by
  refine ⟨fun ss ls tc mm hw htc hmm => ?_, ?_, ?_⟩
  · simp only [calculate_spread_metrics]
    refine ⟨trivial, trivial, one_le_ceil_contracts hw htc, fun h => ?_, fun h => ?_⟩
    · rw [if_neg (not_lt.mpr h)]
    · rw [if_pos h]
  · have h17 : (⌈(50 : ℚ) / 3⌉ : ℤ) = 17 := by
      rw [Int.ceil_eq_iff]; constructor <;> norm_num
    simp only [calculate_spread_metrics]
    norm_num [h17]
  · rw [show ((2500 : ℚ) / 150) = 50 / 3 by norm_num, Int.ceil_eq_iff]
    constructor <;> norm_num

/-- Witness for C3 at the spec's scenario input. -/
theorem spread_metrics_formulas_witness :
    (0 : ℚ) < |(5810 : ℚ) - 5805| ∧ (0 : ℚ) < 2500 ∧ (0 : ℚ) < 5000 ∧
    (calculate_spread_metrics 5810 5805 2500 5000).estimated_credit
        = |(5810 : ℚ) - 5805| * 30 ∧
    1 ≤ ⌈(2500 : ℚ) / (|(5810 : ℚ) - 5805| * 30)⌉ :=
  ⟨by norm_num, by norm_num, by norm_num,
    (spread_metrics_formulas.1 5810 5805 2500 5000 (by norm_num) (by norm_num)
      (by norm_num)).1,
    (spread_metrics_formulas.1 5810 5805 2500 5000 (by norm_num) (by norm_num)
      (by norm_num)).2.2.1⟩

/-- C4: with positive width, target credit and margin cap, the sizer result
always has `contractCount ≥ 1`; whenever one contract's max loss fits the cap
the reported `totalMargin` is at most `maxMargin`, and in the remaining case
(`maxMargin < maxLossPerContract`) the result is `contractCount = 1` with
`totalMargin > maxMargin` — the overage is visible in the returned
`total_margin` field itself (the source exposes the true margin instead of
clamping it; the dashboard warns from exactly this field). -/
theorem spread_metrics_margin_invariant (ss ls tc mm : ℚ)
    (hw : 0 < |ss - ls|) (htc : 0 < tc) (hmm : 0 < mm) :
    1 ≤ (calculate_spread_metrics ss ls tc mm).contracts_needed ∧
    ((calculate_spread_metrics ss ls tc mm).max_loss_per_spread ≤ mm →
      (calculate_spread_metrics ss ls tc mm).total_margin ≤ mm) ∧
    (mm < (calculate_spread_metrics ss ls tc mm).max_loss_per_spread →
      (calculate_spread_metrics ss ls tc mm).contracts_needed = 1 ∧
      mm < (calculate_spread_metrics ss ls tc mm).total_margin) := by
  have hml : (0 : ℚ) < |ss - ls| * 100 - |ss - ls| * 30 := max_loss_pos hw
  have hc0 : 1 ≤ ⌈tc / (|ss - ls| * 30)⌉ := one_le_ceil_contracts hw htc
  have hc0' : (1 : ℚ) ≤ (⌈tc / (|ss - ls| * 30)⌉ : ℚ) := by exact_mod_cast hc0
  simp only [calculate_spread_metrics]
  refine ⟨?_, ?_, ?_⟩
  · split_ifs with hcond
    · exact le_max_left 1 _
    · exact hc0
  · intro hfits
    split_ifs with hcond
    · have h1 : (1 : ℚ) ≤ mm / (|ss - ls| * 100 - |ss - ls| * 30) :=
        (one_le_div hml).mpr hfits
      have hfl : 1 ≤ ⌊mm / (|ss - ls| * 100 - |ss - ls| * 30)⌋ :=
        Int.le_floor.mpr (by exact_mod_cast h1)
      rw [max_eq_right hfl]
      calc (|ss - ls| * 100 - |ss - ls| * 30)
            * (⌊mm / (|ss - ls| * 100 - |ss - ls| * 30)⌋ : ℚ)
          ≤ (|ss - ls| * 100 - |ss - ls| * 30)
            * (mm / (|ss - ls| * 100 - |ss - ls| * 30)) := by
            gcongr
            exact Int.floor_le _
        _ = mm := by rw [mul_comm, div_mul_cancel₀ _ (ne_of_gt hml)]
    · have := not_lt.mp hcond
      nlinarith
  · intro hover
    have hcond : mm < (⌈tc / (|ss - ls| * 30)⌉ : ℚ)
        * (|ss - ls| * 100 - |ss - ls| * 30) := by nlinarith
    rw [if_pos hcond]
    have hfl : ⌊mm / (|ss - ls| * 100 - |ss - ls| * 30)⌋ < 1 := by
      have h1 : mm / (|ss - ls| * 100 - |ss - ls| * 30) < 1 := (div_lt_one hml).mpr hover
      exact Int.floor_lt.mpr (by exact_mod_cast h1)
    rw [max_eq_left (by omega)]
    constructor
    · rfl
    · push_cast
      linarith

/-- Witness for C4 at the spec's scenario input. -/
theorem spread_metrics_margin_invariant_witness :
    (0 : ℚ) < |(5810 : ℚ) - 5805| ∧ (0 : ℚ) < 2500 ∧ (0 : ℚ) < 5000 ∧
    1 ≤ (calculate_spread_metrics 5810 5805 2500 5000).contracts_needed :=
  ⟨by norm_num, by norm_num, by norm_num,
    (spread_metrics_margin_invariant 5810 5805 2500 5000 (by norm_num) (by norm_num)
      (by norm_num)).1⟩

/-- C9 counterexample: there is no boundary validation in the source.  On the
invalid input `target_credit = -100` (with valid strikes and margin cap) the
sizer does not reject: it computes and returns a fully populated result — with
`contracts_needed = 0`, which also violates the spec's own
`contractCount ≥ 1` invariant.  Hence the entry points do not "fail fast" on
non-positive configuration values. -/
theorem spread_metrics_computes_on_invalid_input :
    calculate_spread_metrics 5810 5805 (-100) 5000
      = { estimated_credit := 150, max_loss_per_spread := 350, contracts_needed := 0,
          total_credit := 0, total_margin := 0 } := by
  have h0 : (⌈-((2 : ℚ) / 3)⌉ : ℤ) = 0 := by
    rw [Int.ceil_eq_iff]; constructor <;> norm_num
  simp only [calculate_spread_metrics]
  norm_num [h0]

/-- C9 amended: the recommendation entry points perform no input validation;
with a non-positive target credit (and positive width and margin cap) the
sizer still returns a computed result whose contract count is
`ceil(target_credit / credit)`, a non-positive number, rather than rejecting
the input. -/
theorem spread_metrics_no_fail_fast (ss ls tc mm : ℚ)
    (hw : 0 < |ss - ls|) (htc : tc ≤ 0) (hmm : 0 < mm) :
    (calculate_spread_metrics ss ls tc mm).contracts_needed
        = ⌈tc / (|ss - ls| * 30)⌉ ∧
    (calculate_spread_metrics ss ls tc mm).contracts_needed ≤ 0 := by
  have hec : (0 : ℚ) < |ss - ls| * 30 := by positivity
  have hq : tc / (|ss - ls| * 30) ≤ 0 := div_nonpos_iff.mpr (Or.inr ⟨htc, hec.le⟩)
  have hc0 : ⌈tc / (|ss - ls| * 30)⌉ ≤ 0 := by
    have := Int.ceil_le.mpr (show tc / (|ss - ls| * 30) ≤ ((0 : ℤ) : ℚ) by exact_mod_cast hq)
    exact this
  have hc0' : ((⌈tc / (|ss - ls| * 30)⌉ : ℤ) : ℚ) ≤ 0 := by exact_mod_cast hc0
  have hml : (0 : ℚ) < |ss - ls| * 100 - |ss - ls| * 30 := max_loss_pos hw
  have hcond : ¬ (mm < (⌈tc / (|ss - ls| * 30)⌉ : ℚ)
      * (|ss - ls| * 100 - |ss - ls| * 30)) := by
    push_neg
    nlinarith
  simp only [calculate_spread_metrics]
  rw [if_neg hcond]
  exact ⟨rfl, hc0⟩

/-- Witness for the amended C9 theorem at a concrete invalid input. -/
theorem spread_metrics_no_fail_fast_witness :
    (0 : ℚ) < |(5810 : ℚ) - 5805| ∧ (-100 : ℚ) ≤ 0 ∧ (0 : ℚ) < 5000 ∧
    (calculate_spread_metrics 5810 5805 (-100) 5000).contracts_needed ≤ 0 :=
  ⟨by norm_num, by norm_num, by norm_num,
    (spread_metrics_no_fail_fast 5810 5805 (-100) 5000 (by norm_num) (by norm_num)
      (by norm_num)).2⟩

/-!
Helper lemmas about the strike selector.
-/

/-- Projection of the put-side short strike. -/
lemma put_short_strike_eq (p : ℚ) :
    (get_strike_recommendations p .put).short_strike
      = ⌊(p - p * min_strike_distance) / (strike_gap : ℚ)⌋ * strike_gap := rfl

/-- Projection of the put-side long strike. -/
lemma put_long_strike_eq (p : ℚ) :
    (get_strike_recommendations p .put).long_strike
      = (get_strike_recommendations p .put).short_strike - strike_gap := rfl

/-- Projection of the call-side short strike. -/
lemma call_short_strike_eq (p : ℚ) :
    (get_strike_recommendations p .call).short_strike
      = ⌈(p + p * min_strike_distance) / (strike_gap : ℚ)⌉ * strike_gap := rfl

/-- Projection of the call-side long strike. -/
lemma call_long_strike_eq (p : ℚ) :
    (get_strike_recommendations p .call).long_strike
      = (get_strike_recommendations p .call).short_strike + strike_gap := rfl

/-- The spread sizer reads its strike arguments only through the absolute
width `|short - long|`: equal widths give equal results. -/
lemma spread_metrics_width_congr {s1 l1 s2 l2 : ℚ} (h : |s1 - l1| = |s2 - l2|)
    (tc mm : ℚ) :
    calculate_spread_metrics s1 l1 tc mm = calculate_spread_metrics s2 l2 tc mm := by
  simp only [calculate_spread_metrics, h]

/-- The put-side width, as the rational difference of the cast strikes, is the
strike gap 5. -/
lemma put_width_eq (p : ℚ) :
    |((get_strike_recommendations p .put).short_strike : ℚ)
      - ((get_strike_recommendations p .put).long_strike : ℚ)| = 5 := by
  rw [put_long_strike_eq]
  push_cast [strike_gap]
  ring_nf
  norm_num

/-- The call-side width, as the rational difference of the cast strikes, is
the strike gap 5. -/
lemma call_width_eq (p : ℚ) :
    |((get_strike_recommendations p .call).short_strike : ℚ)
      - ((get_strike_recommendations p .call).long_strike : ℚ)| = 5 := by
  rw [call_long_strike_eq]
  push_cast [strike_gap]
  ring_nf
  norm_num

/-- C5: for every positive current price, the put side returns as short strike
the largest multiple of the strike gap lying at or below
`price * (1 - min_strike_distance)`, and the long strike one gap lower; hence
the short strike is below the price, the long strike below the short strike,
both are multiples of the gap and the width is the gap.  In the scenario
`price = 5820` the short strike is 5810, the long strike 5805 and the
distance from the current price is 10. -/
theorem put_strike_selection :
    (∀ p : ℚ, 0 < p →
      ((get_strike_recommendations p .put).short_strike : ℚ)
          ≤ p * (1 - min_strike_distance) ∧
      (∀ k : ℤ, ((k * strike_gap : ℤ) : ℚ) ≤ p * (1 - min_strike_distance) →
        k * strike_gap ≤ (get_strike_recommendations p .put).short_strike) ∧
      (get_strike_recommendations p .put).long_strike
          = (get_strike_recommendations p .put).short_strike - strike_gap ∧
      ((get_strike_recommendations p .put).short_strike : ℚ) < p ∧
      (get_strike_recommendations p .put).long_strike
          < (get_strike_recommendations p .put).short_strike ∧
      (∃ a : ℤ, (get_strike_recommendations p .put).short_strike = a * strike_gap) ∧
      (∃ b : ℤ, (get_strike_recommendations p .put).long_strike = b * strike_gap) ∧
      (get_strike_recommendations p .put).strike_width = strike_gap) ∧
    (get_strike_recommendations 5820 .put).short_strike = 5810 ∧
    (get_strike_recommendations 5820 .put).long_strike = 5805 ∧
    (get_strike_recommendations 5820 .put).distance_from_atm = 10 := by
  have htarget : ∀ p : ℚ, p - p * min_strike_distance = p * (1 - min_strike_distance) :=
    fun p => by ring
  refine ⟨fun p hp => ?_, ?_, ?_, ?_⟩
  · have hfloor : ((⌊(p - p * min_strike_distance) / (strike_gap : ℚ)⌋ : ℚ))
        ≤ (p - p * min_strike_distance) / (strike_gap : ℚ) := Int.floor_le _
    have hle : ((get_strike_recommendations p .put).short_strike : ℚ)
        ≤ p * (1 - min_strike_distance) := by
      rw [put_short_strike_eq, ← htarget p]
      push_cast [strike_gap]
      calc (⌊(p - p * min_strike_distance) / (5 : ℚ)⌋ : ℚ) * 5
          ≤ ((p - p * min_strike_distance) / (5 : ℚ)) * 5 := by
            gcongr
            simpa [strike_gap] using hfloor
        _ = p - p * min_strike_distance := by ring
    have hdistpos : 0 < p * min_strike_distance := by
      have : (0 : ℚ) < min_strike_distance := by norm_num [min_strike_distance]
      positivity
    refine ⟨hle, fun k hk => ?_, put_long_strike_eq p, ?_, ?_, ?_, ?_, ?_⟩
    · rw [put_short_strike_eq]
      have hk5 : (k : ℚ) ≤ (p - p * min_strike_distance) / (strike_gap : ℚ) := by
        rw [le_div_iff₀ (by norm_num [strike_gap] : (0 : ℚ) < (strike_gap : ℚ))]
        rw [htarget p]
        push_cast at hk ⊢
        linarith
      have := Int.le_floor.mpr hk5
      have h5 : (0 : ℤ) < strike_gap := by norm_num [strike_gap]
      exact mul_le_mul_of_nonneg_right this h5.le
    · calc ((get_strike_recommendations p .put).short_strike : ℚ)
          ≤ p * (1 - min_strike_distance) := hle
        _ = p - p * min_strike_distance := by ring
        _ < p := by linarith
    · rw [put_long_strike_eq]
      norm_num [strike_gap]
    · exact ⟨⌊(p - p * min_strike_distance) / (strike_gap : ℚ)⌋, put_short_strike_eq p⟩
    · refine ⟨⌊(p - p * min_strike_distance) / (strike_gap : ℚ)⌋ - 1, ?_⟩
      rw [put_long_strike_eq, put_short_strike_eq]
      ring
    · show |(get_strike_recommendations p .put).short_strike
          - (get_strike_recommendations p .put).long_strike| = strike_gap
      rw [put_long_strike_eq]
      norm_num [strike_gap]
  · rw [put_short_strike_eq]
    norm_num [min_strike_distance, strike_gap]
  · rw [put_long_strike_eq, put_short_strike_eq]
    norm_num [min_strike_distance, strike_gap]
  · show (5820 : ℚ) - ((get_strike_recommendations 5820 .put).short_strike : ℚ) = 10
    rw [put_short_strike_eq]
    norm_num [min_strike_distance, strike_gap]

/-- Witness for C5 at the spec's scenario price. -/
theorem put_strike_selection_witness :
    (0 : ℚ) < 5820 ∧
    ((get_strike_recommendations 5820 .put).short_strike : ℚ) < 5820 ∧
    (get_strike_recommendations 5820 .put).long_strike
        < (get_strike_recommendations 5820 .put).short_strike :=
  ⟨by norm_num, (put_strike_selection.1 5820 (by norm_num)).2.2.2.1,
    (put_strike_selection.1 5820 (by norm_num)).2.2.2.2.1⟩

/-- C10: the spread sizer depends on its strikes only through the absolute
width; since both sides of `get_trade_recommendations` use width strike-gap
spreads, the bull-put and bear-call metrics coincide, and the top-level
`contracts_needed` / `estimated_credit` / `max_loss_per_spread` fields always
duplicate the bull-put values, regardless of trend direction. -/
theorem both_sides_metrics_identical :
    (∀ s1 l1 s2 l2 tc mm : ℚ, |s1 - l1| = |s2 - l2| →
      calculate_spread_metrics s1 l1 tc mm = calculate_spread_metrics s2 l2 tc mm) ∧
    (∀ p tc mm : ℚ, 0 < p → 0 < tc → 0 < mm →
      (get_strike_recommendations p .put).strike_width = strike_gap ∧
      (get_strike_recommendations p .call).strike_width = strike_gap ∧
      (get_trade_recommendations p tc mm).bull_put_metrics
          = (get_trade_recommendations p tc mm).bear_call_metrics ∧
      (get_trade_recommendations p tc mm).contracts_needed
          = (get_trade_recommendations p tc mm).bull_put_metrics.contracts_needed ∧
      (get_trade_recommendations p tc mm).estimated_credit
          = (get_trade_recommendations p tc mm).bull_put_metrics.estimated_credit ∧
      (get_trade_recommendations p tc mm).max_loss_per_spread
          = (get_trade_recommendations p tc mm).bull_put_metrics.max_loss_per_spread) := by
  refine ⟨fun s1 l1 s2 l2 tc mm h => spread_metrics_width_congr h tc mm,
    fun p tc mm hp htc hmm => ?_⟩
  have hwidths : |((get_strike_recommendations p .put).short_strike : ℚ)
        - ((get_strike_recommendations p .put).long_strike : ℚ)|
      = |((get_strike_recommendations p .call).short_strike : ℚ)
        - ((get_strike_recommendations p .call).long_strike : ℚ)| := by
    rw [put_width_eq, call_width_eq]
  refine ⟨?_, ?_, ?_, rfl, rfl, rfl⟩
  · show |(get_strike_recommendations p .put).short_strike
        - (get_strike_recommendations p .put).long_strike| = strike_gap
    rw [put_long_strike_eq]
    norm_num [strike_gap]
  · show |(get_strike_recommendations p .call).short_strike
        - (get_strike_recommendations p .call).long_strike| = strike_gap
    rw [call_long_strike_eq]
    norm_num [strike_gap]
  · show calculate_spread_metrics ((get_strike_recommendations p .put).short_strike : ℚ)
        ((get_strike_recommendations p .put).long_strike : ℚ) tc mm
      = calculate_spread_metrics ((get_strike_recommendations p .call).short_strike : ℚ)
        ((get_strike_recommendations p .call).long_strike : ℚ) tc mm
    exact spread_metrics_width_congr hwidths tc mm

/-- Witness for C10 at the spec's scenario inputs. -/
theorem both_sides_metrics_identical_witness :
    (0 : ℚ) < 5820 ∧ (0 : ℚ) < 2500 ∧ (0 : ℚ) < 5000 ∧
    (get_trade_recommendations 5820 2500 5000).bull_put_metrics
        = (get_trade_recommendations 5820 2500 5000).bear_call_metrics :=
  ⟨by norm_num, by norm_num, by norm_num,
    (both_sides_metrics_identical.2 5820 2500 5000 (by norm_num) (by norm_num)
      (by norm_num)).2.2.1⟩

/-!
Helper lemmas about the Black-Scholes delta.
-/

/-- The standard normal CDF is non-negative. -/
lemma norm_cdf_nonneg (x : ℝ) : 0 ≤ norm_cdf x :=
  ProbabilityTheory.cdf_nonneg _ x

/-- The standard normal CDF is at most one. -/
lemma norm_cdf_le_one (x : ℝ) : norm_cdf x ≤ 1 :=
  ProbabilityTheory.cdf_le_one _ x

/-- C2: for every spot `S > 0`, any strike, expiry, rate and `sigma > 0`, with
positive time-to-expiry the put delta `-Phi(-d1)` lies in `[-1, 0]` and the
call delta `Phi(d1)` lies in `[0, 1]`; in the degenerate case `T ≤ 0` the
function short-circuits to the step function `1.0 if S > K else 0.0` for
either option type, before any division is evaluated. -/
theorem black_scholes_delta_range (S K T r sigma : ℝ) (hS : 0 < S) (hsig : 0 < sigma) :
    (0 < T →
      -1 ≤ calculate_black_scholes_delta S K T r sigma .put ∧
      calculate_black_scholes_delta S K T r sigma .put ≤ 0 ∧
      0 ≤ calculate_black_scholes_delta S K T r sigma .call ∧
      calculate_black_scholes_delta S K T r sigma .call ≤ 1) ∧
    (T ≤ 0 → ∀ ot : OptionType,
      calculate_black_scholes_delta S K T r sigma ot = if K < S then 1 else 0) := by
  constructor
  · intro hT
    simp only [calculate_black_scholes_delta, if_neg (not_le.mpr hT)]
    refine ⟨?_, ?_, norm_cdf_nonneg _, norm_cdf_le_one _⟩
    · have h := norm_cdf_le_one
        (-((Real.log (S / K) + (r + 0.5 * sigma ^ 2) * T) / (sigma * Real.sqrt T)))
      linarith
    · have h := norm_cdf_nonneg
        (-((Real.log (S / K) + (r + 0.5 * sigma ^ 2) * T) / (sigma * Real.sqrt T)))
      linarith
  · intro hT ot
    simp only [calculate_black_scholes_delta, if_pos hT]

/-- Witness for C2 at a concrete short-dated input. -/
theorem black_scholes_delta_range_witness :
    (0 : ℝ) < 100 ∧ (0 : ℝ) < 1 / 5 ∧ (0 : ℝ) < 1 / 365 ∧
    0 ≤ calculate_black_scholes_delta 100 95 (1 / 365) (1 / 20) (1 / 5) .call ∧
    calculate_black_scholes_delta 100 95 (1 / 365) (1 / 20) (1 / 5) .call ≤ 1 :=
  ⟨by norm_num, by norm_num, by norm_num,
    ((black_scholes_delta_range 100 95 (1 / 365) (1 / 20) (1 / 5) (by norm_num)
      (by norm_num)).1 (by norm_num)).2.2.1,
    ((black_scholes_delta_range 100 95 (1 / 365) (1 / 20) (1 / 5) (by norm_num)
      (by norm_num)).1 (by norm_num)).2.2.2⟩

/-- Delta side conditions hold whenever both the spot and the strike are
positive (the fixed `T = 1/365` and `sigma = 0.20` make the `d1` denominator
non-zero). -/
lemma bsDeltaInputsOk_of_pos {S K : ℝ} (hS : 0 < S) (hK : 0 < K) :
    bsDeltaInputsOk S K bs_T bs_sigma := by
  right
  refine ⟨ne_of_gt hK, div_pos hS hK, ne_of_gt (mul_pos ?_ ?_)⟩
  · norm_num [bs_sigma]
  · exact Real.sqrt_pos.mpr (by norm_num [bs_T])

/-- C1 counterexample: the pipeline is not total on all positive inputs.  At
`spx_price = 4` (with positive target credit and margin cap) the put-side
short strike floors to 0, so the Black-Scholes delta computation divides the
spot by a zero strike (`np.log(S / K)` with `K = 0` raises
`ZeroDivisionError` in the source): the division/logarithm side conditions
fail. -/
theorem pipeline_not_total_on_positive_inputs :
    (0 : ℚ) < 4 ∧ (0 : ℚ) < 100 ∧ ¬ pipelineInputsOk 4 100 100 := by
  refine ⟨by norm_num, by norm_num, fun h => ?_⟩
  simp only [pipelineInputsOk] at h
  obtain ⟨h1, -, -, -, -, -⟩ := h
  have hss : (get_strike_recommendations 4 .put).short_strike = 0 := by
    rw [put_short_strike_eq]
    norm_num [min_strike_distance, strike_gap]
  rw [hss] at h1
  simp only [bsDeltaInputsOk] at h1
  rcases h1 with hT | ⟨hK, -⟩
  · norm_num [bs_T] at hT
  · exact hK (by norm_num)

/-- C1 amended: the pipeline side conditions do hold for every
`currentPrice ≥ 20000/1997` (≈ 10.016 — exactly the prices whose put-side
long strike is still positive), `targetCredit > 0` and `maxMargin > 0`: every
division in the pipeline has a non-zero denominator and every logarithm
argument is positive, so `get_trade_recommendations` runs to completion. -/
theorem pipeline_inputs_ok_amended (spx_price target_credit max_margin : ℚ)
    (hp : 20000 / 1997 ≤ spx_price) (htc : 0 < target_credit) (hmm : 0 < max_margin) :
    pipelineInputsOk spx_price target_credit max_margin := by
  have hp0 : (0 : ℚ) < spx_price := lt_of_lt_of_le (by norm_num) hp
  have hpR : (0 : ℝ) < (spx_price : ℚ) := by exact_mod_cast hp0
  have htp : (10 : ℚ) ≤ spx_price - spx_price * min_strike_distance := by
    norm_num [min_strike_distance]
    linarith
  have h2 : (2 : ℤ) ≤ ⌊(spx_price - spx_price * min_strike_distance) / (strike_gap : ℚ)⌋ := by
    refine Int.le_floor.mpr ?_
    rw [le_div_iff₀ (by norm_num [strike_gap] : (0 : ℚ) < (strike_gap : ℚ))]
    push_cast [strike_gap]
    linarith
  have hshort_p : 10 ≤ (get_strike_recommendations spx_price .put).short_strike := by
    rw [put_short_strike_eq]
    have h5 : (0 : ℤ) ≤ 5 := by norm_num
    calc (10 : ℤ) = 2 * 5 := by norm_num
      _ ≤ ⌊(spx_price - spx_price * min_strike_distance) / (strike_gap : ℚ)⌋ * 5 :=
        mul_le_mul_of_nonneg_right h2 h5
      _ = ⌊(spx_price - spx_price * min_strike_distance) / (strike_gap : ℚ)⌋ * strike_gap := by
        norm_num [strike_gap]
  have hlong_p : 5 ≤ (get_strike_recommendations spx_price .put).long_strike := by
    rw [put_long_strike_eq]
    norm_num [strike_gap]
    omega
  have hceil : (1 : ℤ) ≤ ⌈(spx_price + spx_price * min_strike_distance) / (strike_gap : ℚ)⌉ := by
    have hpos : (0 : ℚ) < (spx_price + spx_price * min_strike_distance) / (strike_gap : ℚ) := by
      apply div_pos
      · have : (0 : ℚ) < min_strike_distance := by norm_num [min_strike_distance]
        nlinarith
      · norm_num [strike_gap]
    have := Int.ceil_pos.mpr hpos
    omega
  have hshort_c : 5 ≤ (get_strike_recommendations spx_price .call).short_strike := by
    rw [call_short_strike_eq]
    have h5 : (0 : ℤ) ≤ 5 := by norm_num
    calc (5 : ℤ) = 1 * 5 := by norm_num
      _ ≤ ⌈(spx_price + spx_price * min_strike_distance) / (strike_gap : ℚ)⌉ * 5 :=
        mul_le_mul_of_nonneg_right hceil h5
      _ = ⌈(spx_price + spx_price * min_strike_distance) / (strike_gap : ℚ)⌉ * strike_gap := by
        norm_num [strike_gap]
  have hlong_c : 5 ≤ (get_strike_recommendations spx_price .call).long_strike := by
    rw [call_long_strike_eq]
    norm_num [strike_gap]
    omega
  simp only [pipelineInputsOk]
  refine ⟨bsDeltaInputsOk_of_pos hpR (by exact_mod_cast lt_of_lt_of_le (by norm_num) hshort_p),
    bsDeltaInputsOk_of_pos hpR (by exact_mod_cast lt_of_lt_of_le (by norm_num) hlong_p),
    bsDeltaInputsOk_of_pos hpR (by exact_mod_cast lt_of_lt_of_le (by norm_num) hshort_c),
    bsDeltaInputsOk_of_pos hpR (by exact_mod_cast lt_of_lt_of_le (by norm_num) hlong_c),
    ?_, ?_⟩
  · simp only [spreadMetricsInputsOk]
    rw [put_width_eq]
    norm_num
  · simp only [spreadMetricsInputsOk]
    rw [call_width_eq]
    norm_num

/-- Witness for the amended C1 theorem at the dashboard's default inputs. -/
theorem pipeline_inputs_ok_amended_witness :
    (20000 : ℚ) / 1997 ≤ 5820 ∧ (0 : ℚ) < 2500 ∧ (0 : ℚ) < 5000 ∧
    pipelineInputsOk 5820 2500 5000 :=
  ⟨by norm_num, by norm_num, by norm_num,
    pipeline_inputs_ok_amended 5820 2500 5000 (by norm_num) (by norm_num) (by norm_num)⟩

/-!
Helper lemmas about the trend scorer.
-/

/-- Reading a dropped list at position `i` reads the original at `n + i`. -/
lemma drop_getD (l : List ℝ) (n i : ℕ) :
    (l.drop n).getD i 0 = l.getD (n + i) 0 := by
  simp [List.getD_eq_getElem?_getD, List.getElem?_drop]

/-- Reading a replicated list inside its extent gives the replicated value. -/
lemma replicate_getD {n i : ℕ} {a : ℝ} (h : i < n) :
    (List.replicate n a).getD i 0 = a := by
  simp [List.getD_eq_getElem?_getD, List.getElem?_replicate_of_lt h]

/-- The raw score of a sufficiently long series is the raw score of its last
`ema_trend_window` entries (the source truncates with `iloc[-260:]`). -/
lemma trend_raw_score_eq {l : List ℝ} (vix : Option ℝ)
    (h : ema_trend_window ≤ l.length) :
    (calculate_trend_score (some l) vix).raw_score
      = trendScoreRaw (l.drop (l.length - ema_trend_window)) := by
  simp only [calculate_trend_score, if_neg (not_lt.mpr h)]
  by_cases h1 : ema_trend_window < l.length
  · rw [if_pos h1]
  · rw [if_neg h1]
    have h2 : l.length - ema_trend_window = 0 := by omega
    rw [h2, List.drop_zero]

/-- On a row with a full window (`i ≥ 4`) the rolling mean is the plain
average of the five entries `i-4 .. i`. -/
lemma rollingMean_eq_full {t : List ℝ} {i : ℕ} (h4 : 4 ≤ i) :
    rollingMean t ema_window i = (∑ j ∈ Finset.Icc (i - 4) i, t.getD j 0) / 5 := by
  simp only [rollingMean, ema_window]
  have he : i + 1 - 5 = i - 4 := by omega
  have hm : min (i + 1) 5 = 5 := by omega
  rw [he, hm]
  norm_num

/-- The rolling mean of a constant series is that constant. -/
lemma rollingMean_const {t : List ℝ} {c : ℝ}
    (hc : ∀ i, i < t.length → t.getD i 0 = c) {i : ℕ} (hi : i < t.length) :
    rollingMean t ema_window i = c := by
  simp only [rollingMean, ema_window]
  have hmem : ∀ j ∈ Finset.Icc (i + 1 - 5) i, t.getD j 0 = c := fun j hj =>
    hc j (lt_of_le_of_lt (Finset.mem_Icc.mp hj).2 hi)
  rw [Finset.sum_congr rfl hmem, Finset.sum_const, Nat.card_Icc]
  have hcard : i + 1 - (i + 1 - 5) = min (i + 1) 5 := by omega
  rw [hcard, nsmul_eq_mul]
  have hmin : ((min (i + 1) 5 : ℕ) : ℝ) ≠ 0 := by
    exact_mod_cast (by omega : 0 < min (i + 1) 5).ne'
  exact mul_div_cancel_left₀ c hmin

/-- The rolling mean of a positive series is positive. -/
lemma rollingMean_pos {t : List ℝ} (hpos : ∀ i, i < t.length → 0 < t.getD i 0)
    {i : ℕ} (hi : i < t.length) : 0 < rollingMean t ema_window i := by
  simp only [rollingMean, ema_window]
  apply div_pos
  · apply Finset.sum_pos
    · intro j hj
      exact hpos j (lt_of_le_of_lt (Finset.mem_Icc.mp hj).2 hi)
    · exact ⟨i, Finset.mem_Icc.mpr ⟨by omega, le_refl i⟩⟩
  · exact_mod_cast (by omega : 0 < min (i + 1) 5)

/-- On a length-260 series the rolling sum of the last five log differences
telescopes to the difference of the log rolling means at rows 259 and 254. -/
lemma trendScoreRaw_telescope {t : List ℝ} (ht : t.length = 260) :
    trendScoreRaw t
      = Real.log (rollingMean t ema_window 259)
        - Real.log (rollingMean t ema_window 254) := by
  simp only [trendScoreRaw, ht, ema_window]
  norm_num
  rw [show (255 : ℕ) = 255 from rfl, ← Nat.Ico_succ_right, Finset.sum_Ico_eq_sum_range]
  norm_num
  have hstep : ∀ i ∈ Finset.range 5,
      logEmaDiff t (255 + i)
        = Real.log (rollingMean t ema_window (254 + (i + 1)))
          - Real.log (rollingMean t ema_window (254 + i)) := by
    intro i _
    simp only [logEmaDiff]
    have e2 : 255 + i - 1 = 254 + i := by omega
    have e1 : 255 + i = 254 + (i + 1) := by omega
    rw [e2, e1]
  rw [Finset.sum_congr rfl hstep]
  exact Finset.sum_range_sub (fun j => Real.log (rollingMean t ema_window (254 + j))) 5

/-- Strict pointwise comparison of two full five-entry windows transfers to
the rolling means. -/
lemma rollingMean_lt_rollingMean {t : List ℝ} {a b : ℕ} (ha : 4 ≤ a) (hb : 4 ≤ b)
    (hab : ∀ i, i < 5 → t.getD (a - 4 + i) 0 < t.getD (b - 4 + i) 0) :
    rollingMean t ema_window a < rollingMean t ema_window b := by
  rw [rollingMean_eq_full ha, rollingMean_eq_full hb]
  have hsum : (∑ j ∈ Finset.Icc (a - 4) a, t.getD j 0)
      < ∑ j ∈ Finset.Icc (b - 4) b, t.getD j 0 := by
    rw [← Nat.Ico_succ_right, Finset.sum_Ico_eq_sum_range,
      show a + 1 - (a - 4) = 5 by omega]
    rw [← Nat.Ico_succ_right, Finset.sum_Ico_eq_sum_range,
      show b + 1 - (b - 4) = 5 by omega]
    apply Finset.sum_lt_sum_of_nonempty
    · exact ⟨0, by norm_num⟩
    · intro i hi
      exact hab i (Finset.mem_range.mp hi)
  have h5 : (0 : ℝ) < 5 := by norm_num
  exact (div_lt_div_iff_of_pos_right h5).mpr hsum


/-- C6: for every positive price series of length at least the trend window
260, the raw trend score of `calculate_trend_score` — the last value of the
5-row rolling sum of the first differences of the log of the min-periods-1
rolling mean — is exactly 0 when the series is constant, strictly positive
when the series is strictly increasing, and strictly negative when it is
strictly decreasing. -/
theorem trend_score_sign (l : List ℝ) (vix : Option ℝ)
    (hlen : ema_trend_window ≤ l.length)
    (hpos : ∀ i, i < l.length → 0 < l.getD i 0) :
    (∀ c : ℝ, (∀ i, i < l.length → l.getD i 0 = c) →
      (calculate_trend_score (some l) vix).raw_score = 0) ∧
    ((∀ i j, i < j → j < l.length → l.getD i 0 < l.getD j 0) →
      0 < (calculate_trend_score (some l) vix).raw_score) ∧
    ((∀ i j, i < j → j < l.length → l.getD j 0 < l.getD i 0) →
      (calculate_trend_score (some l) vix).raw_score < 0) := by
  have hemtw : ema_trend_window = 260 := rfl
  have hlen' : 260 ≤ l.length := by omega
  have hraw : (calculate_trend_score (some l) vix).raw_score
      = trendScoreRaw (l.drop (l.length - ema_trend_window)) :=
    trend_raw_score_eq vix hlen
  have ht : (l.drop (l.length - ema_trend_window)).length = 260 := by
    rw [List.length_drop]
    omega
  have htget : ∀ i, (l.drop (l.length - ema_trend_window)).getD i 0
      = l.getD (l.length - ema_trend_window + i) 0 :=
    fun i => drop_getD l (l.length - ema_trend_window) i
  have htpos : ∀ i, i < (l.drop (l.length - ema_trend_window)).length →
      0 < (l.drop (l.length - ema_trend_window)).getD i 0 := by
    intro i hi
    rw [ht] at hi
    rw [htget]
    exact hpos _ (by omega)
  refine ⟨fun c hc => ?_, fun hmono => ?_, fun hanti => ?_⟩
  · rw [hraw]
    have htc : ∀ i, i < (l.drop (l.length - ema_trend_window)).length →
        (l.drop (l.length - ema_trend_window)).getD i 0 = c := by
      intro i hi
      rw [ht] at hi
      rw [htget]
      exact hc _ (by omega)
    simp only [trendScoreRaw, ht, ema_window]
    apply Finset.sum_eq_zero
    intro i hi
    have hmem := Finset.mem_Icc.mp hi
    simp only [logEmaDiff]
    rw [rollingMean_const htc (by omega), rollingMean_const htc (by omega), sub_self]
  · rw [hraw, trendScoreRaw_telescope ht]
    have h254 : 0 < rollingMean (l.drop (l.length - ema_trend_window)) ema_window 254 :=
      rollingMean_pos htpos (by omega)
    have hlt : rollingMean (l.drop (l.length - ema_trend_window)) ema_window 254
        < rollingMean (l.drop (l.length - ema_trend_window)) ema_window 259 := by
      apply rollingMean_lt_rollingMean (by norm_num) (by norm_num)
      intro i hi
      rw [htget, htget]
      apply hmono <;> omega
    have := Real.log_lt_log h254 hlt
    linarith
  · rw [hraw, trendScoreRaw_telescope ht]
    have h259 : 0 < rollingMean (l.drop (l.length - ema_trend_window)) ema_window 259 :=
      rollingMean_pos htpos (by omega)
    have hlt : rollingMean (l.drop (l.length - ema_trend_window)) ema_window 259
        < rollingMean (l.drop (l.length - ema_trend_window)) ema_window 254 := by
      apply rollingMean_lt_rollingMean (by norm_num) (by norm_num)
      intro i hi
      rw [htget, htget]
      apply hanti <;> omega
    have := Real.log_lt_log h259 hlt
    linarith

/-- Witness for C6: the constant series of 260 ones scores exactly 0. -/
theorem trend_score_sign_witness :
    (calculate_trend_score (some (List.replicate 260 (1 : ℝ))) none).raw_score = 0 := by
  refine (trend_score_sign (List.replicate 260 (1 : ℝ)) none ?_ ?_).1 1 ?_
  · rw [List.length_replicate]
    norm_num [ema_trend_window]
  · intro i hi
    rw [List.length_replicate] at hi
    rw [replicate_getD hi]
    norm_num
  · intro i hi
    rw [List.length_replicate] at hi
    exact replicate_getD hi

/-- C7: a missing series, or one shorter than the trend window 260, makes
`calculate_trend_score` return the fallback result — raw score 0, neither
long nor short eligibility, the default volatility level 18.0 and the
explicit no-data marker — instead of failing. -/
theorem trend_insufficient_data :
    (∀ vix : Option ℝ, calculate_trend_score none vix = fallbackTrendResult) ∧
    (∀ (l : List ℝ) (vix : Option ℝ), l.length < ema_trend_window →
      calculate_trend_score (some l) vix = fallbackTrendResult) ∧
    fallbackTrendResult.raw_score = 0 ∧
    ¬ fallbackTrendResult.should_trade_long ∧
    ¬ fallbackTrendResult.should_trade_short ∧
    fallbackTrendResult.vix_level = 18 ∧
    fallbackTrendResult.interpretation = TrendLabel.noTrendData := by
  refine ⟨fun vix => rfl, fun l vix h => ?_, rfl, fun h => h, fun h => h, rfl, rfl⟩
  simp only [calculate_trend_score, if_pos h]

/-- Witness for C7 at the empty series. -/
theorem trend_insufficient_data_witness :
    calculate_trend_score (some ([] : List ℝ)) none = fallbackTrendResult :=
  trend_insufficient_data.2.1 [] none (by simp [ema_trend_window])

end ZeroDTE
